import Mathlib

/-!
Verification of the deadline/priority aggregation core of the TwinBot
personal-assistant repository (`modules/utils.py`, `modules/life_dashboard.py`,
`modules/student_manager.py`, `modules/personal_secretary.py`,
`modules/family_helper.py`).

The Python core is embedded shallowly: each relevant Python function becomes a
Lean definition over explicit record types; the wall-clock "today" is threaded
as an explicit parameter; `datetime.strptime` failures (Python `ValueError`,
the spec's `DateFormatError`) are modelled with `Except`.
-/

namespace TwinBot

/-! ### Calendar dates

`datetime.strptime(s, "%Y-%m-%d").date()` is modelled by `parseDate`:
the string must be three dash-separated digit groups (year up to 4 digits,
month/day up to 2, zero-padding optional just as in CPython), and the
triple must form a valid proleptic-Gregorian calendar date with year ≥ 1.
Subtraction of `datetime.date` values (`.days`) is modelled via a
day-number function `rataDie` (days since 0000-12-31). -/

structure Date where
  year : Nat
  month : Nat
  day : Nat
deriving Repr, DecidableEq

def isLeap (y : Nat) : Bool :=
  (y % 4 == 0 && y % 100 != 0) || y % 400 == 0

def daysInMonth (y m : Nat) : Nat :=
  if m = 2 then (if isLeap y then 29 else 28)
  else if m = 4 ∨ m = 6 ∨ m = 9 ∨ m = 11 then 30
  else 31

def Date.valid (dt : Date) : Bool :=
  1 ≤ dt.year && dt.year ≤ 9999 &&
  1 ≤ dt.month && dt.month ≤ 12 &&
  1 ≤ dt.day && dt.day ≤ daysInMonth dt.year dt.month

/-- Number of leap years in `1..n`. -/
def leapCount (n : Nat) : Nat := n / 4 - n / 100 + n / 400

def dayOfYear (dt : Date) : Nat :=
  (List.range (dt.month - 1)).foldl (fun acc i => acc + daysInMonth dt.year (i + 1)) 0 + dt.day

/-- Day number of a calendar date (day 1 = 0001-01-01). -/
def rataDie (dt : Date) : Nat :=
  365 * (dt.year - 1) + leapCount (dt.year - 1) + dayOfYear dt

/-- The error raised by `datetime.strptime` on an unparseable date string
(the spec's `DateFormatError`). -/
inductive DateError where
  | formatError (s : String)
deriving Repr, DecidableEq

/-- Split a character list at every `'-'` (the semantics of Python's
`"…".split('-')`, used here to model the `"%Y-%m-%d"` format structure). -/
def splitOnDash : List Char → List (List Char)
  | [] => [[]]
  | c :: rest =>
    match splitOnDash rest with
    | g :: gs => if c = '-' then [] :: g :: gs else (c :: g) :: gs
    | [] => [[c]]

/-- Decimal value of a nonempty all-digit character group. -/
def digitsToNat? (cs : List Char) : Option Nat :=
  if !cs.isEmpty && cs.all Char.isDigit then
    some (cs.foldl (fun n c => 10 * n + (c.toNat - 48)) 0)
  else none

/-- `datetime.strptime(s, "%Y-%m-%d")`: three dash-separated digit groups
(year at most 4 digits, month/day at most 2, zero-padding optional as in
CPython) forming a valid calendar date. -/
def parseDate (s : String) : Except DateError Date :=
  match splitOnDash s.data with
  | [ys, ms, ds] =>
    match digitsToNat? ys, digitsToNat? ms, digitsToNat? ds with
    | some y, some m, some d =>
      if ys.length ≤ 4 && ms.length ≤ 2 && ds.length ≤ 2 && Date.valid ⟨y, m, d⟩ then
        Except.ok ⟨y, m, d⟩
      else Except.error (.formatError s)
    | _, _, _ => Except.error (.formatError s)
  | _ => Except.error (.formatError s)

/-- `utils.days_until`: `(strptime(target).date() - today).days`.  The global
`now().date()` of the source is threaded explicitly as `today`. -/
def days_until (targetDateStr : String) (today : Date) : Except DateError Int := do
  let target ← parseDate targetDateStr
  pure ((rataDie target : Int) - (rataDie today : Int))

/-- `utils.friendly_deadline`. -/
def friendly_deadline (dateStr : String) (today : Date) : Except DateError String := do
  let d ← days_until dateStr today
  if d = 0 then pure "today"
  else if d = 1 then pure "tomorrow"
  else if d > 1 then pure ("in " ++ toString d ++ " days")
  else pure ("overdue by " ++ toString d.natAbs ++ " day" ++ (if d.natAbs ≠ 1 then "s" else ""))

/-! ### Lexicographic string comparison

Python list sorts such as `assignments.sort(key=lambda a: a["due_date"])`
compare strings lexicographically by code point; `charListLe`/`strLe` embed
that comparison. -/

def charListLe : List Char → List Char → Bool
  | [], _ => true
  | _ :: _, [] => false
  | a :: as, b :: bs => if a = b then charListLe as bs else decide (a.toNat < b.toNat)

def strLe (a b : String) : Bool := charListLe a.data b.data

theorem char_toNat_injective {a b : Char} (h : a.toNat = b.toNat) : a = b :=
  Char.ext (UInt32.ext h)

/-- Python's `str.upper()` on the ASCII letters the grade table uses. -/
def strToUpper (s : String) : String := String.mk (s.data.map Char.toUpper)

/-- Python's `str.lower()` on the ASCII titles the assignment flow compares. -/
def strToLower (s : String) : String := String.mk (s.data.map Char.toLower)

theorem charListLe_total : ∀ a b : List Char, charListLe a b = true ∨ charListLe b a = true
  | [], _ => Or.inl rfl
  | _ :: _, [] => Or.inr rfl
  | a :: as, b :: bs => by
    by_cases hab : a = b
    · subst hab
      simpa [charListLe] using charListLe_total as bs
    · have hba : b ≠ a := fun h => hab h.symm
      simp only [charListLe, if_neg hab, if_neg hba, decide_eq_true_eq]
      have : a.toNat ≠ b.toNat := fun h => hab (char_toNat_injective h)
      omega

theorem charListLe_trans : ∀ a b c : List Char,
    charListLe a b = true → charListLe b c = true → charListLe a c = true
  | [], _, _, _, _ => rfl
  | _ :: _, [], _, h, _ => by simp [charListLe] at h
  | _ :: _, _ :: _, [], _, h => by simp [charListLe] at h
  | a :: as, b :: bs, c :: cs, hab, hbc => by
    by_cases h1 : a = b <;> by_cases h2 : b = c
    · subst h1; subst h2
      simp only [charListLe, if_pos rfl] at *
      exact charListLe_trans as bs cs hab hbc
    · subst h1
      simpa [charListLe, h2] using hbc
    · subst h2
      simpa [charListLe, h1] using hab
    · simp only [charListLe, if_neg h1, if_neg h2, decide_eq_true_eq] at hab hbc
      have hac : a ≠ c := by
        intro h; subst h
        have : a.toNat ≠ b.toNat := fun h => h1 (char_toNat_injective h)
        omega
      simp only [charListLe, if_neg hac, decide_eq_true_eq]
      omega

theorem strLe_total (a b : String) : strLe a b = true ∨ strLe b a = true :=
  charListLe_total a.data b.data

theorem strLe_trans {a b c : String} (h1 : strLe a b = true) (h2 : strLe b c = true) :
    strLe a c = true :=
  charListLe_trans a.data b.data c.data h1 h2

/-! ### Urgency classification

§4.2 of the spec posits a single five-bucket classifier `urgencyBucket`.
No such shared function exists in the source; each call site inlines its own
thresholds.  `urgencyBucket` below is therefore the SPEC-side definition
(transcribed from the spec table), kept for comparison against the per-module
classifications embedded from the source underneath it. -/

inductive Urgency where
  | Overdue | Today | Critical | Warning | Normal
deriving Repr, DecidableEq

/-- Spec §4.2 table (spec-side definition, for comparison with the source's
inlined thresholds). -/
def urgencyBucket (delta : Int) : Urgency :=
  if delta < 0 then .Overdue
  else if delta = 0 then .Today
  else if delta ≤ 3 then .Critical
  else if delta ≤ 7 then .Warning
  else .Normal

/-- The branch taken by `student_manager.view_exams` when formatting the
countdown cell for an exam `d` days away (source lines 303-313). -/
inductive ExamCountdownClass where
  | passed | examToday | redSoon | yellowSoon | plain
deriving Repr, DecidableEq

def examCountdownClass (d : Int) : ExamCountdownClass :=
  if d < 0 then .passed
  else if d = 0 then .examToday
  else if d ≤ 3 then .redSoon
  else if d ≤ 7 then .yellowSoon
  else .plain

/-- The rich-markup opening/closing tag pair chosen by
`life_dashboard.morning_briefing` for an upcoming exam `d` days away
(source lines 235-236): red for `d ≤ 3`, yellow for `d ≤ 7`, none otherwise. -/
def briefingExamTag (d : Int) : String × String :=
  if d ≤ 3 then ("[bold red]", "[/bold red]")
  else if d ≤ 7 then ("[yellow]", "[/yellow]")
  else ("", "")

/-- The branch taken by `family_helper.view_family` when styling the
next-birthday cell for a birthday `d` days away (source lines 56-63):
today / within 7 days / within 30 days / plain. -/
inductive FamilyBirthdayClass where
  | bdayToday | within7 | within30 | plain
deriving Repr, DecidableEq

def familyBirthdayClass (d : Int) : FamilyBirthdayClass :=
  if d = 0 then .bdayToday
  else if d ≤ 7 then .within7
  else if d ≤ 30 then .within30
  else .plain

/-! ### Record types

One structure per JSON record kind, with exactly the fields the add-actions
write.  Fields that older records may lack (and that the source reads with
`.get`) are `Option`s; `done` is read with `.get("done")` whose missing-key
case is falsy, so it is embedded as a plain `Bool`. -/

structure ClassEntry where
  id : String
  course : String
  day : String
  time : String
  room : Option String
  professor : Option String
deriving Repr, DecidableEq

structure Assignment where
  id : String
  course : String
  title : String
  due_date : String
  priority : Option String
  notes : Option String
  done : Bool
  created : Option String
  completed_date : Option String
deriving Repr, DecidableEq

structure Exam where
  id : String
  course : String
  title : String
  date : String
  location : Option String
  notes : Option String
deriving Repr, DecidableEq

structure Reminder where
  id : String
  text : String
  date : Option String
  «repeat» : Option String
deriving Repr, DecidableEq

structure Todo where
  id : String
  task : String
  priority : Option String
  category : Option String
  due_date : Option String
  done : Bool
deriving Repr, DecidableEq

structure Event where
  id : String
  title : String
  date : Option String
  location : Option String
  notes : Option String
deriving Repr, DecidableEq

structure Errand where
  id : String
  task : String
  for_whom : Option String
  priority : Option String
  done : Bool
deriving Repr, DecidableEq

structure Grade where
  id : String
  course : String
  grade : String
  credits : Int
deriving Repr, DecidableEq

/-! ### Monadic list traversals

Python list comprehensions whose predicate/body can raise are embedded as
left-to-right traversals in the `Except` monad: the first `DateFormatError`
aborts the whole comprehension (and, uncaught, the whole briefing). -/

def filterE {ε α : Type _} (f : α → Except ε Bool) : List α → Except ε (List α)
  | [] => Except.ok []
  | a :: l => do
    let b ← f a
    let r ← filterE f l
    pure (if b then a :: r else r)

def mapE {ε α β : Type _} (f : α → Except ε β) : List α → Except ε (List β)
  | [] => Except.ok []
  | a :: l => do
    let b ← f a
    let r ← mapE f l
    pure (b :: r)

def exceptIsOk {ε α : Type _} : Except ε α → Bool
  | .ok _ => true
  | .error _ => false

end TwinBot

deriving instance DecidableEq for Except

namespace TwinBot

/-! ### Sort relations (Python `list.sort(key=…)` on string fields) -/

def dueLe (a b : Assignment) : Prop := strLe a.due_date b.due_date = true

instance : DecidableRel dueLe := fun a b =>
  inferInstanceAs (Decidable (strLe a.due_date b.due_date = true))

instance : IsTotal Assignment dueLe := ⟨fun a b => strLe_total a.due_date b.due_date⟩

instance : IsTrans Assignment dueLe := ⟨fun _ _ _ => strLe_trans⟩

def examDateLe (a b : Exam) : Prop := strLe a.date b.date = true

instance : DecidableRel examDateLe := fun a b =>
  inferInstanceAs (Decidable (strLe a.date b.date = true))

instance : IsTotal Exam examDateLe := ⟨fun a b => strLe_total a.date b.date⟩

instance : IsTrans Exam examDateLe := ⟨fun _ _ _ => strLe_trans⟩

def timeLe (a b : ClassEntry) : Prop := strLe a.time b.time = true

instance : DecidableRel timeLe := fun a b =>
  inferInstanceAs (Decidable (strLe a.time b.time = true))

instance : IsTotal ClassEntry timeLe := ⟨fun a b => strLe_total a.time b.time⟩

instance : IsTrans ClassEntry timeLe := ⟨fun _ _ _ => strLe_trans⟩

/-! ### To-do priority ranking (`personal_secretary.view_todos` /
`pending_todos`): `priority_order.get(t.get("priority", "Medium"), 1)`. -/

/-- The dict `{"High": 0, "Medium": 1, "Low": 2}`. -/
def priority_order (p : String) : Option Nat :=
  match p with
  | "High" => some 0
  | "Medium" => some 1
  | "Low" => some 2
  | _ => none

/-- `priority_order.get(t.get("priority", "Medium"), 1)`: the sort key used by
both `view_todos` and `pending_todos`. -/
def priorityRank (t : Todo) : Nat :=
  (priority_order (t.priority.getD "Medium")).getD 1

def rankLe (a b : Todo) : Prop := priorityRank a ≤ priorityRank b

instance : DecidableRel rankLe := fun a b =>
  inferInstanceAs (Decidable (priorityRank a ≤ priorityRank b))

instance : IsTotal Todo rankLe := ⟨fun a b => Nat.le_total (priorityRank a) (priorityRank b)⟩

instance : IsTrans Todo rankLe := ⟨fun _ _ _ => Nat.le_trans⟩

/-- `personal_secretary.pending_todos(limit)`: pending to-dos sorted by
priority rank, first `limit` (the source defaults `limit` to 5). -/
def pending_todos (todos : List Todo) (limit : Nat) : List Todo :=
  ((todos.filter (fun t => !t.done)).insertionSort rankLe).take limit

/-! ### Reminders (`personal_secretary.todays_reminders` and the reminders
section of `life_dashboard.morning_briefing`, which use the same filter). -/

/-- `[r for r in reminders if r.get("date") == today]` where `today` is
`now().strftime("%Y-%m-%d")`. -/
def todays_reminders (reminders : List Reminder) (todayStr : String) : List Reminder :=
  reminders.filter (fun r => r.date == some todayStr)

/-! ### GPA (`student_manager.calculate_gpa`, same scale dict inlined in
`student_manager.GPA_SCALE`, `view_grades` and `life_dashboard.quick_stats`).
Python floats are embedded as exact rationals. -/

/-- The `GPA_SCALE` dict. -/
def GPA_SCALE (letter : String) : Option ℚ :=
  match letter with
  | "A+" => some 4 | "A" => some 4 | "A-" => some 3.7
  | "B+" => some 3.3 | "B" => some 3 | "B-" => some 2.7
  | "C+" => some 2.3 | "C" => some 2 | "C-" => some 1.7
  | "D+" => some 1.3 | "D" => some 1 | "D-" => some 0.7
  | "F" => some 0
  | _ => none

/-- `GPA_SCALE.get(g["grade"].upper(), 0)`.  The stored letters are already
upper-cased by `add_grade`; `Grade.grade` here holds the stored string, and
the `.upper()` call is embedded as `strToUpper`. -/
def gradePoints (letter : String) : ℚ := (GPA_SCALE (strToUpper letter)).getD 0

/-- `student_manager.calculate_gpa`. -/
def calculate_gpa (grades : List Grade) : ℚ :=
  if grades.isEmpty then 0
  else
    let total_points : ℚ := (grades.map (fun g => gradePoints g.grade * (g.credits : ℚ))).sum
    let total_credits : Int := (grades.map (fun g => g.credits)).sum
    if total_credits > 0 then total_points / (total_credits : ℚ) else 0

/-! ### The morning briefing (`life_dashboard.morning_briefing`)

Each console section becomes a field of `Briefing`; the whole build runs in
`Except DateError` because the source wraps none of its `days_until` /
`friendly_deadline` calls in a handler, so the first unparseable date aborts
the function.  Sections are computed in source order. -/

/-- Today's-classes section: `[c for c in schedule if c["day"] == today]`,
then `todays_classes.sort(key=lambda c: c["time"])`. -/
def classesSection (schedule : List ClassEntry) (todayWeekday : String) : List ClassEntry :=
  (schedule.filter (fun c => c.day == todayWeekday)).insertionSort timeLe

/-- The assignments block of the briefing: URGENT list, else up-to-3 upcoming,
else the caught-up message. -/
inductive DeadlineSection where
  | urgent (items : List Assignment)
  | upcoming (items : List Assignment)
  | caughtUp
deriving Repr, DecidableEq

/-- The urgency test of the briefing's deadline loop:
`days_until(a["due_date"]) <= 3` (raising on an unparseable date). -/
def urgentCheck (today : Date) (a : Assignment) : Except DateError Bool := do
  let d ← days_until a.due_date today
  pure (decide (d ≤ 3))

/-- Briefing lines 209-223: pending assignments sorted by `due_date`, filtered
by `days_until(due) <= 3`; fallback `pending_assignments[:3]`; fallback
caught-up message. -/
def deadlinesSection (assignments : List Assignment) (today : Date) :
    Except DateError DeadlineSection := do
  let pending := (assignments.filter (fun a => !a.done)).insertionSort dueLe
  let urgent ← filterE (urgentCheck today) pending
  if !urgent.isEmpty then pure (.urgent urgent)
  else if !pending.isEmpty then pure (.upcoming (pending.take 3))
  else pure .caughtUp

/-- The upcoming test of the briefing's exam loop: `days_until(e["date"]) >= 0`. -/
def upcomingCheck (today : Date) (e : Exam) : Except DateError Bool := do
  let d ← days_until e.date today
  pure (decide (0 ≤ d))

/-- One displayed exam row: the exam with the day-delta that selects its
markup tag (`briefingExamTag`). -/
def examEntry (today : Date) (e : Exam) : Except DateError (Exam × Int) := do
  let d ← days_until e.date today
  pure (e, d)

/-- Briefing lines 227-237: exams with `days_until(date) >= 0`, sorted by
`date`, first 3. -/
def examsSection (exams : List Exam) (today : Date) :
    Except DateError (List (Exam × Int)) := do
  let upcoming ← filterE (upcomingCheck today) exams
  let sorted := upcoming.insertionSort examDateLe
  mapE (examEntry today) (sorted.take 3)

/-- The to-dos block of the briefing: up to 3 High-priority pending to-dos,
else a bare count of pending to-dos, else nothing. -/
inductive TodoSection where
  | highPriority (items : List Todo)
  | pendingCount (n : Nat)
  | nothing
deriving Repr, DecidableEq

/-- Briefing lines 252-261. -/
def todosSection (todos : List Todo) : TodoSection :=
  let pending := todos.filter (fun t => !t.done)
  let high := pending.filter (fun t => t.priority == some "High")
  if !high.isEmpty then .highPriority (high.take 3)
  else if !pending.isEmpty then .pendingCount pending.length
  else .nothing

/-- Briefing lines 265-270: family events with
`0 <= days_until(e.get("date", "1900-01-01")) <= 14`, each rendered with its
`friendly_deadline` text. -/
def eventCheck (today : Date) (e : Event) : Except DateError Bool := do
  let d ← days_until (e.date.getD "1900-01-01") today
  pure (decide (0 ≤ d) && decide (d ≤ 14))

def eventEntry (today : Date) (e : Event) : Except DateError (Event × String) := do
  let f ← friendly_deadline (e.date.getD "1900-01-01") today
  pure (e, f)

def eventsSection (events : List Event) (today : Date) :
    Except DateError (List (Event × String)) := do
  let upcoming ← filterE (eventCheck today) events
  mapE (eventEntry today) upcoming

/-- One snapshot of every store the briefing reads, in the order it reads
them. -/
structure Stores where
  schedule : List ClassEntry
  assignments : List Assignment
  exams : List Exam
  reminders : List Reminder
  todos : List Todo
  familyEvents : List Event
  errands : List Errand
deriving Repr, DecidableEq

structure Briefing where
  classes : List ClassEntry
  deadlines : DeadlineSection
  examItems : List (Exam × Int)
  remindersToday : List Reminder
  todosBlock : TodoSection
  eventItems : List (Event × String)
  pendingErrandCount : Nat
deriving Repr, DecidableEq

/-- `life_dashboard.morning_briefing`, with the wall clock threaded in as
`today` (the calendar date), `todayWeekday` (`now().strftime("%A")`) and
`todayStr` (`now().strftime("%Y-%m-%d")`).  The greeting, weather fetch and
random closing quote are presentation/collaborator glue and carry no record
data. -/
def morning_briefing (st : Stores) (today : Date) (todayWeekday todayStr : String) :
    Except DateError Briefing := do
  let classes := classesSection st.schedule todayWeekday
  let deadlines ← deadlinesSection st.assignments today
  let examItems ← examsSection st.exams today
  let remindersToday := todays_reminders st.reminders todayStr
  let todosBlock := todosSection st.todos
  let eventItems ← eventsSection st.familyEvents today
  let pendingErrandCount := (st.errands.filter (fun e => !e.done)).length
  pure ⟨classes, deadlines, examItems, remindersToday, todosBlock, eventItems,
        pendingErrandCount⟩

/-! ### Completing an assignment (`student_manager.complete_assignment`)

The interactive wrapper loads the store, early-returns when nothing is
pending, and otherwise marks the FIRST not-done assignment whose title matches
case-insensitively, saving the whole list back; if the loop finds no match the
store is never saved.  The function below returns `some newList` exactly when
the source calls `save_json`, and `none` when it does not. -/

/-- The record mutation inside the loop: `a["done"] = True;
a["completed_date"] = now().isoformat()` (all other fields untouched). -/
def markDone (a : Assignment) (ts : String) : Assignment :=
  ⟨a.id, a.course, a.title, a.due_date, a.priority, a.notes, true, a.created, some ts⟩

/-- Whether the loop body fires for `a`:
`a["title"].lower() == title.lower() and not a.get("done")`. -/
def titleMatchesPending (a : Assignment) (title : String) : Bool :=
  strToLower a.title == strToLower title && !a.done

def completeFirst (title ts : String) : List Assignment → Option (List Assignment)
  | [] => none
  | a :: rest =>
    if titleMatchesPending a title then some (markDone a ts :: rest)
    else (completeFirst title ts rest).map (a :: ·)

/-- `student_manager.complete_assignment` on a loaded store snapshot. -/
def complete_assignment (assignments : List Assignment) (title ts : String) :
    Option (List Assignment) :=
  if (assignments.filter (fun a => !a.done)).isEmpty then none
  else completeFirst title ts assignments

/-! ### Derived predicates used to state the claims -/

/-- Value of an `Except`-computed Bool, reading an error as `false`. -/
def okD {ε : Type _} : Except ε Bool → Bool
  | .ok b => b
  | .error _ => false

/-- An assignment the briefing counts as urgent: its due date parses and the
day-delta is at most 3. -/
def isUrgentB (a : Assignment) (today : Date) : Bool :=
  match days_until a.due_date today with
  | .ok d => decide (d ≤ 3)
  | .error _ => false

/-- An exam the briefing counts as upcoming: its date parses and the
day-delta is nonnegative. -/
def isUpcomingB (e : Exam) (today : Date) : Bool :=
  match days_until e.date today with
  | .ok d => decide (0 ≤ d)
  | .error _ => false

/-- The day-delta of a parseable date string (default 0, used only where
parsing is already known to succeed). -/
def deltaD (s : String) (today : Date) : Int :=
  match days_until s today with
  | .ok d => d
  | .error _ => 0

/-- Replace a reminder's `repeat` field, keeping everything else. -/
def setRepeat (r : Reminder) (rep : Option String) : Reminder :=
  ⟨r.id, r.text, r.date, rep⟩

/-- The correspondence between the spec's five buckets and the five countdown
branches of `view_exams`. -/
def examClassOfBucket : Urgency → ExamCountdownClass
  | .Overdue => .passed
  | .Today => .examToday
  | .Critical => .redSoon
  | .Warning => .yellowSoon
  | .Normal => .plain

/-! ### Concrete fixtures used to exercise the theorems -/

def sampleToday : Date := ⟨2026, 10, 12⟩

/-- Pending assignment due in 1 day (urgent). -/
def sampleEssay : Assignment :=
  ⟨"1", "CS", "Essay", "2026-10-13", some "High", none, false, none, none⟩

/-- Pending assignment due in 10 days (not urgent). -/
def sampleQuiz : Assignment :=
  ⟨"2", "CS", "Quiz", "2026-10-22", none, none, false, none, none⟩

/-- Pending assignment whose due date does not parse. -/
def sampleBad : Assignment :=
  ⟨"3", "CS", "Lab", "oops", none, none, false, none, none⟩

/-- Exam 8 days away. -/
def sampleMidterm : Exam := ⟨"4", "CS", "Midterm", "2026-10-20", none, none⟩

end TwinBot

namespace TwinBot

/-! ### Lemmas about the monadic traversals -/

theorem filterE_ok_eq {ε α : Type _} (f : α → Except ε Bool) :
    ∀ (l : List α) (r : List α), filterE f l = .ok r →
      r = l.filter (fun a => okD (f a)) ∧ ∀ a ∈ l, exceptIsOk (f a) = true
  | [], r, h => by
    simp only [filterE] at h
    cases h
    simp
  | a :: l, r, h => by
    simp only [filterE, bind, Except.bind] at h
    cases hf : f a with
    | error e => rw [hf] at h; cases h
    | ok b =>
      rw [hf] at h
      cases hrec : filterE f l with
      | error e => rw [hrec] at h; cases h
      | ok r' =>
        rw [hrec] at h
        obtain ⟨hr', hall⟩ := filterE_ok_eq f l r' hrec
        simp only [pure, Except.pure, Except.ok.injEq] at h
        subst h
        constructor
        · cases b <;> simp [List.filter, okD, hf, hr']
        · intro x hx
          rcases List.mem_cons.mp hx with rfl | hx
          · simp [exceptIsOk, hf]
          · exact hall x hx

theorem filterE_error_of_mem {ε α : Type _} (f : α → Except ε Bool) :
    ∀ (l : List α) (a : α), a ∈ l → exceptIsOk (f a) = false →
      ∃ e, filterE f l = .error e
  | [], a, ha, _ => by cases ha
  | b :: l, a, ha, hbad => by
    simp only [filterE, bind, Except.bind]
    cases hf : f b with
    | error e => exact ⟨e, rfl⟩
    | ok v =>
      rcases List.mem_cons.mp ha with rfl | ha
      · rw [hf] at hbad; simp [exceptIsOk] at hbad
      · obtain ⟨e, he⟩ := filterE_error_of_mem f l a ha hbad
        exact ⟨e, by rw [he]⟩

theorem filterE_ok_of_forall {ε α : Type _} (f : α → Except ε Bool) :
    ∀ l : List α, (∀ a ∈ l, exceptIsOk (f a) = true) →
      filterE f l = .ok (l.filter (fun a => okD (f a)))
  | [], _ => rfl
  | a :: l, h => by
    have ha := h a (List.mem_cons_self a l)
    have hrec := filterE_ok_of_forall f l (fun x hx => h x (List.mem_cons_of_mem a hx))
    simp only [filterE, bind, Except.bind]
    cases hf : f a with
    | error e => rw [hf] at ha; simp [exceptIsOk] at ha
    | ok b =>
      rw [hrec]
      cases b <;> simp [List.filter, okD, hf, pure, Except.pure]

theorem mapE_ok_of_forall {ε α β : Type _} (f : α → Except ε β) (g : α → β) :
    ∀ l : List α, (∀ a ∈ l, f a = .ok (g a)) → mapE f l = .ok (l.map g)
  | [], _ => rfl
  | a :: l, h => by
    have ha := h a (List.mem_cons_self a l)
    have hrec := mapE_ok_of_forall f g l (fun x hx => h x (List.mem_cons_of_mem a hx))
    simp only [mapE, bind, Except.bind, ha, hrec, List.map, pure, Except.pure]

theorem mapE_ok_forall {ε α β : Type _} (f : α → Except ε β) :
    ∀ (l : List α) (r : List β), mapE f l = .ok r → ∀ a ∈ l, exceptIsOk (f a) = true
  | [], _, _, a, ha => by cases ha
  | b :: l, r, h, a, ha => by
    simp only [mapE, bind, Except.bind] at h
    cases hf : f b with
    | error e => rw [hf] at h; cases h
    | ok v =>
      rw [hf] at h
      cases hrec : mapE f l with
      | error e => rw [hrec] at h; cases h
      | ok r' =>
        rcases List.mem_cons.mp ha with rfl | ha
        · simp [exceptIsOk, hf]
        · exact mapE_ok_forall f l r' hrec a ha

end TwinBot

namespace TwinBot

/-! ### Claim theorems -/

/-- C2 counterexample: the family birthday view does NOT reuse the spec's
urgency table.  Deltas 10 and 40 fall in the same spec bucket (Normal), yet
`view_family` styles them differently (its extra 30-day cutoff); conversely
deltas 2 and 5 fall in different spec buckets (Critical vs Warning), yet
`view_family` styles them identically. -/
theorem urgency_table_not_shared_cex :
    (urgencyBucket 10 = urgencyBucket 40 ∧ familyBirthdayClass 10 ≠ familyBirthdayClass 40) ∧
    (urgencyBucket 2 ≠ urgencyBucket 5 ∧ familyBirthdayClass 2 = familyBirthdayClass 5) := by
  decide

/-- C2 (amended): the five-bucket table partitions the integers exactly as
stated (delta=3 Critical, 4 and 7 Warning, 8 Normal); the exam views do derive
their display classes from this one table (`view_exams`'s five countdown
branches coincide with the five buckets, and the briefing's exam markup is a
function of the bucket); but the family birthday view uses its own
0/≤7/≤30 cutoffs, which are not a function of the bucket. -/
theorem urgencyBucket_partition_and_call_sites :
    (∀ d : Int,
      (urgencyBucket d = .Overdue ↔ d < 0) ∧
      (urgencyBucket d = .Today ↔ d = 0) ∧
      (urgencyBucket d = .Critical ↔ 1 ≤ d ∧ d ≤ 3) ∧
      (urgencyBucket d = .Warning ↔ 4 ≤ d ∧ d ≤ 7) ∧
      (urgencyBucket d = .Normal ↔ 7 < d)) ∧
    (∀ d : Int, examCountdownClass d = examClassOfBucket (urgencyBucket d)) ∧
    (∀ d e : Int, urgencyBucket d = urgencyBucket e → briefingExamTag d = briefingExamTag e) ∧
    (urgencyBucket 10 = urgencyBucket 40 ∧ familyBirthdayClass 10 ≠ familyBirthdayClass 40) := by
  refine ⟨?_, ?_, ?_, by decide⟩
  · intro d
    unfold urgencyBucket
    refine ⟨?_, ?_, ?_, ?_, ?_⟩ <;> (split_ifs <;> simp_all <;> omega)
  · intro d
    unfold examCountdownClass urgencyBucket examClassOfBucket
    split_ifs <;> rfl
  · intro d e h
    unfold urgencyBucket at h
    unfold briefingExamTag
    split_ifs at h ⊢ <;> simp_all <;> omega

/-- C2 witness: the briefing-tag clause applied at deltas 2 and 3, which share
the Critical bucket. -/
theorem urgencyBucket_partition_and_call_sites_witness :
    urgencyBucket 2 = urgencyBucket 3 ∧ briefingExamTag 2 = briefingExamTag 3 :=
  ⟨by decide, urgencyBucket_partition_and_call_sites.2.2.1 2 3 (by decide)⟩

/-- C9 (confirmed): `days_until` is anti-symmetric under swapping the target
date and "today": for parseable dates `a` and `b`, the delta of `a` relative
to `b` is the negation of the delta of `b` relative to `a`. -/
theorem days_until_antisymm (sa sb : String) (a b : Date) (d : Int)
    (ha : parseDate sa = .ok a) (hb : parseDate sb = .ok b)
    (hd : days_until sa b = .ok d) :
    days_until sb a = .ok (-d) := by
  unfold days_until at hd ⊢
  simp only [bind, Except.bind, ha, hb, pure, Except.pure, Except.ok.injEq] at hd ⊢
  omega

/-- C9 witness at 2026-10-15 vs 2026-10-12 (delta 3 one way, -3 the other). -/
theorem days_until_antisymm_witness :
    parseDate "2026-10-15" = .ok ⟨2026, 10, 15⟩ ∧
    parseDate "2026-10-12" = .ok ⟨2026, 10, 12⟩ ∧
    days_until "2026-10-15" ⟨2026, 10, 12⟩ = .ok 3 ∧
    days_until "2026-10-12" ⟨2026, 10, 15⟩ = .ok (-3) :=
  ⟨by decide, by decide, by decide,
    days_until_antisymm "2026-10-15" "2026-10-12" ⟨2026, 10, 15⟩ ⟨2026, 10, 12⟩ 3
      (by decide) (by decide) (by decide)⟩

/-- C5 (confirmed): for a parseable date with delta `d`, `friendly_deadline`
returns exactly "today" (d=0), "tomorrow" (d=1), "in N days" (d>1), or
"overdue by N day(s)" (d<0, N=|d|, singular for N=1). -/
theorem friendly_deadline_spec (s : String) (today : Date) (d : Int)
    (h : days_until s today = .ok d) :
    friendly_deadline s today = .ok
      (if d = 0 then "today"
       else if d = 1 then "tomorrow"
       else if d > 1 then "in " ++ toString d ++ " days"
       else "overdue by " ++ toString d.natAbs ++ " day" ++
         (if d.natAbs = 1 then "" else "s")) := by
  unfold friendly_deadline
  rw [h]
  simp only [bind, Except.bind]
  by_cases h0 : d = 0
  · simp [h0, pure, Except.pure]
  · by_cases h1 : d = 1
    · simp [h0, h1, pure, Except.pure]
    · by_cases h2 : d > 1
      · simp [h0, h1, h2, pure, Except.pure]
      · by_cases h3 : d.natAbs = 1 <;> simp [h0, h1, h2, h3, pure, Except.pure]

/-- C5 witness at delta -7 (plural overdue branch). -/
theorem friendly_deadline_spec_witness :
    days_until "2026-10-05" ⟨2026, 10, 12⟩ = .ok (-7) ∧
    friendly_deadline "2026-10-05" ⟨2026, 10, 12⟩ = .ok
      (if (-7 : Int) = 0 then "today"
       else if (-7 : Int) = 1 then "tomorrow"
       else if (-7 : Int) > 1 then "in " ++ toString (-7 : Int) ++ " days"
       else "overdue by " ++ toString (-7 : Int).natAbs ++ " day" ++
         (if (-7 : Int).natAbs = 1 then "" else "s")) :=
  ⟨by decide, friendly_deadline_spec "2026-10-05" ⟨2026, 10, 12⟩ (-7) (by decide)⟩

/-- C6 (confirmed): today's reminders are exactly those whose stored date
field literally equals today's date string, and the selection is oblivious to
the `repeat` field (rewriting every reminder's `repeat` commutes with the
selection, so Daily/Weekly/Monthly reminders are never expanded). -/
theorem todays_reminders_spec :
    (∀ (reminders : List Reminder) (todayStr : String) (r : Reminder),
      r ∈ todays_reminders reminders todayStr ↔ r ∈ reminders ∧ r.date = some todayStr) ∧
    (∀ (reminders : List Reminder) (todayStr : String) (rep : Option String),
      todays_reminders (reminders.map (fun r => setRepeat r rep)) todayStr =
        (todays_reminders reminders todayStr).map (fun r => setRepeat r rep)) := by
  constructor
  · intro l t r
    simp [todays_reminders, List.mem_filter]
  · intro l t rep
    simp only [todays_reminders, List.filter_map]
    rfl

/-- C8 (confirmed): the to-do priority key maps High to 0, Medium to 1, Low
to 2, an absent priority to Medium's rank 1, any unrecognized priority string
to Medium's rank 1 (totally, hence without raising), and `pending_todos`
sorts ascending by this rank (lower first). -/
theorem priorityRank_spec :
    (∀ t : Todo, t.priority = some "High" → priorityRank t = 0) ∧
    (∀ t : Todo, t.priority = some "Medium" → priorityRank t = 1) ∧
    (∀ t : Todo, t.priority = some "Low" → priorityRank t = 2) ∧
    (∀ t : Todo, t.priority = none → priorityRank t = 1) ∧
    (∀ (t : Todo) (s : String), t.priority = some s →
      s ≠ "High" → s ≠ "Medium" → s ≠ "Low" → priorityRank t = 1) ∧
    (∀ (todos : List Todo) (limit : Nat), (pending_todos todos limit).Sorted rankLe) := by
  refine ⟨?_, ?_, ?_, ?_, ?_, ?_⟩
  · intro t h; simp [priorityRank, h, priority_order]
  · intro t h; simp [priorityRank, h, priority_order]
  · intro t h; simp [priorityRank, h, priority_order]
  · intro t h; simp [priorityRank, h, priority_order]
  · intro t s h hH hM hL
    simp only [priorityRank, h, Option.getD_some]
    unfold priority_order
    split <;> simp_all
  · intro todos limit
    exact (List.sorted_insertionSort rankLe _).sublist (List.take_sublist _ _)

/-- C8 witness: an unrecognized priority string ("Urgent") ranks 1. -/
theorem priorityRank_spec_witness :
    (⟨"1", "t", some "Urgent", none, none, false⟩ : Todo).priority = some "Urgent" ∧
    priorityRank ⟨"1", "t", some "Urgent", none, none, false⟩ = 1 :=
  ⟨rfl, priorityRank_spec.2.2.2.2.1 ⟨"1", "t", some "Urgent", none, none, false⟩ "Urgent"
    rfl (by decide) (by decide) (by decide)⟩

/-- C4 (confirmed): `calculate_gpa` is the credit-weighted average of grade
points, 0 for an empty list or zero total credits; an unmapped letter ("Z")
contributes 0 points while its credits still count in the denominator; and
the A/B example evaluates to 3.5 (= 7/2). -/
theorem calculate_gpa_spec :
    calculate_gpa [] = 0 ∧
    (∀ grades : List Grade, (grades.map (fun g => g.credits)).sum = 0 →
      calculate_gpa grades = 0) ∧
    (∀ grades : List Grade, 0 < (grades.map (fun g => g.credits)).sum →
      calculate_gpa grades =
        (grades.map (fun g => gradePoints g.grade * (g.credits : ℚ))).sum /
          (((grades.map (fun g => g.credits)).sum : Int) : ℚ)) ∧
    GPA_SCALE "Z" = none ∧ gradePoints "Z" = 0 ∧
    calculate_gpa [⟨"1", "c1", "A", 3⟩, ⟨"2", "c2", "B", 3⟩] = 7 / 2 ∧
    calculate_gpa [⟨"1", "c1", "A", 3⟩, ⟨"2", "c2", "Z", 3⟩] = 2 := by
  refine ⟨rfl, ?_, ?_, rfl, by decide, ?_, ?_⟩
  · intro grades h
    simp only [calculate_gpa, h]
    simp
  · intro grades h
    have hne : grades.isEmpty = false := by
      cases grades with
      | nil => simp at h
      | cons g l => rfl
    simp only [calculate_gpa, hne, Bool.false_eq_true, if_false]
    rw [if_pos h]
  · have hA : gradePoints "A" = 4 := by decide
    have hB : gradePoints "B" = 3 := by decide
    simp [calculate_gpa, hA, hB]
    norm_num
  · have hA : gradePoints "A" = 4 := by decide
    have hZ : gradePoints "Z" = 0 := by decide
    simp [calculate_gpa, hA, hZ]
    norm_num

/-- C4 witness: the weighted-average clause applied to the A/B example. -/
theorem calculate_gpa_spec_witness :
    0 < (([⟨"1", "c1", "A", 3⟩, ⟨"2", "c2", "B", 3⟩] : List Grade).map
        (fun g => g.credits)).sum ∧
    calculate_gpa [⟨"1", "c1", "A", 3⟩, ⟨"2", "c2", "B", 3⟩] =
      (([⟨"1", "c1", "A", 3⟩, ⟨"2", "c2", "B", 3⟩] : List Grade).map
          (fun g => gradePoints g.grade * (g.credits : ℚ))).sum /
        (((([⟨"1", "c1", "A", 3⟩, ⟨"2", "c2", "B", 3⟩] : List Grade).map
          (fun g => g.credits)).sum : Int) : ℚ) :=
  ⟨by decide, calculate_gpa_spec.2.2.1 _ (by decide)⟩

end TwinBot

namespace TwinBot

/-! ### Helper lemmas for the section proofs -/

theorem okD_urgentCheck (today : Date) (a : Assignment) :
    okD (urgentCheck today a) = isUrgentB a today := by
  cases h : days_until a.due_date today <;>
    simp [urgentCheck, isUrgentB, okD, bind, Except.bind, h, pure, Except.pure]

theorem okD_upcomingCheck (today : Date) (e : Exam) :
    okD (upcomingCheck today e) = isUpcomingB e today := by
  cases h : days_until e.date today <;>
    simp [upcomingCheck, isUpcomingB, okD, bind, Except.bind, h, pure, Except.pure]

/-- C3 (confirmed): on a snapshot whose relevant dates all parse
(`deadlinesSection … = .ok s`), the urgent branch holds exactly the pending
assignments with day-delta ≤ 3 sorted by due date; the fallback branch fires
only when no pending assignment is urgent and shows the (up to) 3 soonest
pending assignments; and the caught-up message appears iff there is no
pending assignment at all. -/
theorem deadlinesSection_spec (assignments : List Assignment) (today : Date)
    (s : DeadlineSection) (h : deadlinesSection assignments today = .ok s) :
    (∀ l, s = .urgent l →
      l ≠ [] ∧
      l.Perm (assignments.filter (fun a => !a.done && isUrgentB a today)) ∧
      l.Sorted dueLe) ∧
    (∀ l, s = .upcoming l →
      assignments.filter (fun a => !a.done && isUrgentB a today) = [] ∧
      (∃ sp : List Assignment, sp.Perm (assignments.filter (fun a => !a.done)) ∧
        sp.Sorted dueLe ∧ l = sp.take 3) ∧ l ≠ []) ∧
    (s = .caughtUp ↔ assignments.filter (fun a => !a.done) = []) := by
  unfold deadlinesSection at h
  simp only [bind, Except.bind] at h
  set sorted := (assignments.filter (fun a => !a.done)).insertionSort dueLe with hsdef
  have hss : sorted.Sorted dueLe := by
    rw [hsdef]; exact List.sorted_insertionSort dueLe _
  have hsp : sorted.Perm (assignments.filter (fun a => !a.done)) := by
    rw [hsdef]; exact List.perm_insertionSort dueLe _
  cases hfe : filterE (urgentCheck today) sorted with
  | error e =>
    rw [hfe] at h
    exact Except.noConfusion h
  | ok urgent =>
    rw [hfe] at h
    simp only [] at h
    obtain ⟨hurg, -⟩ := filterE_ok_eq _ _ _ hfe
    have hpred : sorted.filter (fun a => okD (urgentCheck today a)) =
        sorted.filter (fun a => isUrgentB a today) := by
      congr 1
      funext a
      rw [okD_urgentCheck]
    rw [hpred] at hurg
    have hup : urgent.Perm (assignments.filter (fun a => !a.done && isUrgentB a today)) := by
      rw [hurg]
      have h1 := List.Perm.filter (fun a => isUrgentB a today) hsp
      refine h1.trans ?_
      rw [List.filter_filter]
      have heq : (fun a : Assignment => isUrgentB a today && !a.done) =
          (fun a : Assignment => !a.done && isUrgentB a today) := by
        funext a
        exact Bool.and_comm _ _
      rw [heq]
    have hus : urgent.Sorted dueLe := by
      rw [hurg]
      exact List.Pairwise.sublist (List.filter_sublist _) hss
    cases hue : urgent.isEmpty with
    | false =>
      rw [hue] at h
      simp only [Bool.not_false, if_true, pure, Except.pure, Except.ok.injEq] at h
      subst h
      have hne : urgent ≠ [] := by
        intro hnil
        rw [hnil] at hue
        simp at hue
      refine ⟨?_, ?_, ?_⟩
      · intro l hl
        rw [DeadlineSection.urgent.injEq] at hl
        subst hl
        exact ⟨hne, hup, hus⟩
      · intro l hl
        simp at hl
      · constructor
        · intro hc
          simp at hc
        · intro hfil
          exfalso
          apply hne
          have hsnil : sorted = [] := by
            rw [hfil] at hsp
            exact hsp.eq_nil
          rw [hurg, hsnil]
          rfl
    | true =>
      rw [hue] at h
      have hunil : urgent = [] := List.isEmpty_iff.mp hue
      have hfilnil : assignments.filter (fun a => !a.done && isUrgentB a today) = [] := by
        rw [hunil] at hup
        exact hup.symm.eq_nil
      simp only [Bool.not_true, if_false, Bool.false_eq_true] at h
      cases hpe : sorted.isEmpty with
      | false =>
        rw [hpe] at h
        simp only [Bool.not_false, if_true, pure, Except.pure, Except.ok.injEq] at h
        subst h
        have hsne : sorted ≠ [] := by
          intro hnil
          rw [hnil] at hpe
          simp at hpe
        refine ⟨?_, ?_, ?_⟩
        · intro l hl
          simp at hl
        · intro l hl
          rw [DeadlineSection.upcoming.injEq] at hl
          subst hl
          refine ⟨hfilnil, ⟨sorted, hsp, hss, rfl⟩, ?_⟩
          intro htake
          rcases List.take_eq_nil_iff.mp htake with h3 | hnil
          · cases h3
          · exact hsne hnil
        · constructor
          · intro hc
            simp at hc
          · intro hfil
            exfalso
            apply hsne
            rw [hfil] at hsp
            exact hsp.eq_nil
      | true =>
        rw [hpe] at h
        simp only [Bool.not_true, if_false, Bool.false_eq_true, pure, Except.pure,
          Except.ok.injEq] at h
        subst h
        have hsnil : sorted = [] := List.isEmpty_iff.mp hpe
        refine ⟨?_, ?_, ?_⟩
        · intro l hl
          simp at hl
        · intro l hl
          simp at hl
        · constructor
          · intro _
            have hps := hsp.symm
            rw [hsnil] at hps
            exact hps.eq_nil
          · intro _
            rfl

/-- C3 witness: with a pending quiz 10 days out and a pending essay due
tomorrow, the urgent branch holds exactly the essay. -/
theorem deadlinesSection_spec_witness :
    deadlinesSection [sampleQuiz, sampleEssay] sampleToday = .ok (.urgent [sampleEssay]) ∧
    ([sampleEssay] ≠ [] ∧
      [sampleEssay].Perm ([sampleQuiz, sampleEssay].filter
        (fun a => !a.done && isUrgentB a sampleToday)) ∧
      [sampleEssay].Sorted dueLe) := by
  have h : deadlinesSection [sampleQuiz, sampleEssay] sampleToday =
      .ok (.urgent [sampleEssay]) := by decide
  exact ⟨h, (deadlinesSection_spec [sampleQuiz, sampleEssay] sampleToday
    (.urgent [sampleEssay]) h).1 [sampleEssay] rfl⟩

end TwinBot

namespace TwinBot

/-- C7 (confirmed): on a snapshot whose exam dates parse, the upcoming-exams
section is the exams with day-delta ≥ 0, sorted by date ascending, capped at
3, each carrying the day-delta that selects its display emphasis; and that
emphasis (`briefingExamTag`) is a function of the urgency bucket. -/
theorem examsSection_spec (exams : List Exam) (today : Date) (l : List (Exam × Int))
    (h : examsSection exams today = .ok l) :
    (∃ sp : List Exam, sp.Perm (exams.filter (fun e => isUpcomingB e today)) ∧
      sp.Sorted examDateLe ∧ l = (sp.take 3).map (fun e => (e, deltaD e.date today))) ∧
    l.length = min 3 (exams.filter (fun e => isUpcomingB e today)).length ∧
    (∀ p ∈ l, p.1 ∈ exams ∧ days_until p.1.date today = .ok p.2 ∧ 0 ≤ p.2) ∧
    (∀ d e : Int, urgencyBucket d = urgencyBucket e → briefingExamTag d = briefingExamTag e) := by
  unfold examsSection at h
  simp only [bind, Except.bind] at h
  cases hfe : filterE (upcomingCheck today) exams with
  | error e =>
    rw [hfe] at h
    exact Except.noConfusion h
  | ok upcoming =>
    rw [hfe] at h
    simp only [] at h
    obtain ⟨hupc, -⟩ := filterE_ok_eq _ _ _ hfe
    have hpred : exams.filter (fun e => okD (upcomingCheck today e)) =
        exams.filter (fun e => isUpcomingB e today) := by
      congr 1
      funext e
      rw [okD_upcomingCheck]
    rw [hpred] at hupc
    subst hupc
    set filtered := exams.filter (fun e => isUpcomingB e today) with hfdef
    set sorted := filtered.insertionSort examDateLe with hsdef
    have hsp : sorted.Perm filtered := by
      rw [hsdef]; exact List.perm_insertionSort examDateLe _
    have hss : sorted.Sorted examDateLe := by
      rw [hsdef]; exact List.sorted_insertionSort examDateLe _
    have hmem3 : ∀ e ∈ sorted.take 3, isUpcomingB e today = true := by
      intro e he
      have h1 : e ∈ sorted := List.take_subset _ _ he
      have h2 : e ∈ filtered := hsp.mem_iff.mp h1
      exact (List.mem_filter.mp h2).2
    have hentry : ∀ e ∈ sorted.take 3, examEntry today e = .ok (e, deltaD e.date today) := by
      intro e he
      have hu := hmem3 e he
      unfold isUpcomingB at hu
      cases hd : days_until e.date today with
      | error err => rw [hd] at hu; exact Bool.noConfusion hu
      | ok d =>
        unfold examEntry deltaD
        rw [hd]
        simp [bind, Except.bind, pure, Except.pure]
    have hmap := mapE_ok_of_forall (examEntry today) (fun e => (e, deltaD e.date today))
      (sorted.take 3) hentry
    rw [hmap] at h
    have hl : l = (sorted.take 3).map (fun e => (e, deltaD e.date today)) :=
      (Except.ok.injEq _ _ ▸ h).symm
    refine ⟨⟨sorted, hsp, hss, hl⟩, ?_, ?_, ?_⟩
    · rw [hl, List.length_map, List.length_take, hsp.length_eq]
    · intro p hp
      rw [hl] at hp
      obtain ⟨e, he3, hpe⟩ := List.mem_map.mp hp
      have hu := hmem3 e he3
      have hmemex : e ∈ exams := by
        have h1 : e ∈ sorted := List.take_subset _ _ he3
        have h2 : e ∈ filtered := hsp.mem_iff.mp h1
        exact (List.mem_filter.mp h2).1
      unfold isUpcomingB at hu
      cases hd : days_until e.date today with
      | error err => rw [hd] at hu; exact Bool.noConfusion hu
      | ok d =>
        rw [hd] at hu
        have hd0 : (0 : Int) ≤ d := of_decide_eq_true hu
        have hdelta : deltaD e.date today = d := by
          unfold deltaD
          rw [hd]
        subst hpe
        exact ⟨hmemex, by simpa [hdelta] using hd, by simpa [hdelta] using hd0⟩
    · intro d e hde
      unfold urgencyBucket at hde
      unfold briefingExamTag
      split_ifs at hde ⊢ <;> simp_all <;> omega

/-- C7 witness: a single exam 8 days out yields one row carrying delta 8. -/
theorem examsSection_spec_witness :
    examsSection [sampleMidterm] sampleToday = .ok [(sampleMidterm, 8)] ∧
    (∀ p ∈ [(sampleMidterm, (8 : Int))], p.1 ∈ [sampleMidterm] ∧
      days_until p.1.date sampleToday = .ok p.2 ∧ 0 ≤ p.2) := by
  have h : examsSection [sampleMidterm] sampleToday = .ok [(sampleMidterm, 8)] := by decide
  exact ⟨h, (examsSection_spec [sampleMidterm] sampleToday [(sampleMidterm, 8)] h).2.2.1⟩

end TwinBot

namespace TwinBot

/-- C1 counterexample: one assignment with the unparseable due date "oops"
makes the whole briefing build return a `DateFormatError`, even though the
exam store is perfectly well-formed and its section alone computes fine — so
the other sections are NOT computed and the offending section does NOT
degrade to a placeholder. -/
theorem briefing_fatal_cex :
    morning_briefing ⟨[], [sampleBad], [sampleMidterm], [], [], [], []⟩
        sampleToday "Monday" "2026-10-12" = .error (.formatError "oops") ∧
    examsSection [sampleMidterm] sampleToday = .ok [(sampleMidterm, 8)] ∧
    parseDate sampleBad.due_date = .error (.formatError "oops") := by
  decide

/-- C1 (amended): a `DateFormatError` is NOT recovered anywhere in
`morning_briefing`: if any pending assignment has an unparseable due date,
the entire briefing build aborts with an error and no section is produced. -/
theorem briefing_fatal_on_malformed_assignment (st : Stores) (today : Date)
    (todayWeekday todayStr : String)
    (h : ∃ a ∈ st.assignments, a.done = false ∧ exceptIsOk (parseDate a.due_date) = false) :
    ∃ err, morning_briefing st today todayWeekday todayStr = .error err := by
  obtain ⟨a, hmem, hnd, hbad⟩ := h
  have hpend : a ∈ st.assignments.filter (fun x => !x.done) :=
    List.mem_filter.mpr ⟨hmem, by simp [hnd]⟩
  have hsorted : a ∈ (st.assignments.filter (fun x => !x.done)).insertionSort dueLe :=
    (List.perm_insertionSort dueLe _).mem_iff.mpr hpend
  have hchk : exceptIsOk (urgentCheck today a) = false := by
    unfold urgentCheck days_until
    cases hp : parseDate a.due_date with
    | ok t =>
      rw [hp] at hbad
      exact Bool.noConfusion hbad
    | error e =>
      simp [bind, Except.bind, exceptIsOk]
  obtain ⟨e, he⟩ := filterE_error_of_mem (urgentCheck today) _ a hsorted hchk
  refine ⟨e, ?_⟩
  unfold morning_briefing deadlinesSection
  simp only [bind, Except.bind, he]

/-- C1 witness: the amended theorem applied to a store holding only the
malformed assignment. -/
theorem briefing_fatal_on_malformed_assignment_witness :
    (∃ a ∈ ([sampleBad] : List Assignment),
      a.done = false ∧ exceptIsOk (parseDate a.due_date) = false) ∧
    ∃ err, morning_briefing ⟨[], [sampleBad], [], [], [], [], []⟩
      sampleToday "Monday" "2026-10-12" = .error err :=
  ⟨by decide, briefing_fatal_on_malformed_assignment
    ⟨[], [sampleBad], [], [], [], [], []⟩ sampleToday "Monday" "2026-10-12" (by decide)⟩

end TwinBot

namespace TwinBot

theorem completeFirst_none_iff (title ts : String) :
    ∀ l : List Assignment, completeFirst title ts l = none ↔
      ∀ a ∈ l, titleMatchesPending a title = false
  | [] => by simp [completeFirst]
  | a :: l => by
    cases hm : titleMatchesPending a title with
    | true => simp [completeFirst, hm]
    | false =>
      simp only [completeFirst, hm, Bool.false_eq_true, if_false, Option.map_eq_none',
        List.mem_cons]
      constructor
      · intro hrec b hb
        rcases hb with rfl | hb
        · exact hm
        · exact (completeFirst_none_iff title ts l).mp hrec b hb
      · intro hall
        exact (completeFirst_none_iff title ts l).mpr (fun b hb => hall b (Or.inr hb))

theorem completeFirst_some (title ts : String) :
    ∀ (l l' : List Assignment), completeFirst title ts l = some l' →
      ∃ i, i < l.length ∧ ∃ a, l.get? i = some a ∧
        titleMatchesPending a title = true ∧
        (∀ j, j < i → ∀ b, l.get? j = some b → titleMatchesPending b title = false) ∧
        l' = l.set i (markDone a ts)
  | [], l', h => by simp [completeFirst] at h
  | a :: l, l', h => by
    cases hm : titleMatchesPending a title with
    | true =>
      rw [completeFirst, hm] at h
      simp only [if_true, Option.some.injEq] at h
      refine ⟨0, by simp, a, rfl, hm, ?_, ?_⟩
      · intro j hj
        omega
      · rw [← h]
        rfl
    | false =>
      rw [completeFirst, hm] at h
      simp only [Bool.false_eq_true, if_false] at h
      obtain ⟨r', hr', hl'⟩ := Option.map_eq_some'.mp h
      obtain ⟨i, hi, b, hb, hmatch, hfirst, hset⟩ := completeFirst_some title ts l r' hr'
      refine ⟨i + 1, by simpa using hi, b, by simpa using hb, hmatch, ?_, ?_⟩
      · intro j hj c hc
        cases j with
        | zero =>
          simp only [List.get?_cons_zero, Option.some.injEq] at hc
          rw [← hc]
          exact hm
        | succ j =>
          exact hfirst j (by omega) c (by simpa using hc)
      · rw [← hl', hset]
        rfl

/-- C10 (confirmed): completing an assignment changes at most one record —
the first not-done assignment whose title matches case-insensitively — and
for that record only the `done` flag and the new completion timestamp; every
other record, and every other field of the changed record, is untouched, and
when no pending record matches the store write never happens (the result is
`none`). -/
theorem complete_assignment_spec (l : List Assignment) (title ts : String) :
    (∀ (a : Assignment) (ts' : String), (markDone a ts').done = true ∧
      (markDone a ts').completed_date = some ts' ∧
      (markDone a ts').id = a.id ∧ (markDone a ts').course = a.course ∧
      (markDone a ts').title = a.title ∧ (markDone a ts').due_date = a.due_date ∧
      (markDone a ts').priority = a.priority ∧ (markDone a ts').notes = a.notes ∧
      (markDone a ts').created = a.created) ∧
    (complete_assignment l title ts = none ↔
      ∀ a ∈ l, titleMatchesPending a title = false) ∧
    (∀ l', complete_assignment l title ts = some l' →
      ∃ i, i < l.length ∧ ∃ a, l.get? i = some a ∧
        titleMatchesPending a title = true ∧
        (∀ j, j < i → ∀ b, l.get? j = some b → titleMatchesPending b title = false) ∧
        l' = l.set i (markDone a ts) ∧
        l'.length = l.length ∧
        (∀ j, j ≠ i → l'.get? j = l.get? j)) := by
  refine ⟨?_, ?_, ?_⟩
  · intro a ts'
    exact ⟨rfl, rfl, rfl, rfl, rfl, rfl, rfl, rfl, rfl⟩
  · unfold complete_assignment
    cases hpe : (l.filter (fun a => !a.done)).isEmpty with
    | true =>
      simp only [if_true]
      have hall : ∀ a ∈ l, titleMatchesPending a title = false := by
        intro a ha
        have hnil := List.isEmpty_iff.mp hpe
        have := List.filter_eq_nil_iff.mp hnil a ha
        unfold titleMatchesPending
        simp only [Bool.not_eq_true] at this
        rw [this]
        simp
      exact ⟨fun _ => hall, fun _ => trivial⟩
    | false =>
      simp only [Bool.false_eq_true, if_false]
      exact completeFirst_none_iff title ts l
  · intro l' hl'
    have hcf : completeFirst title ts l = some l' := by
      unfold complete_assignment at hl'
      cases hpe : (l.filter (fun a => !a.done)).isEmpty with
      | true => rw [hpe] at hl'; simp at hl'
      | false => rw [hpe] at hl'; simpa using hl'
    obtain ⟨i, hi, a, ha, hmatch, hfirst, hset⟩ := completeFirst_some title ts l l' hcf
    refine ⟨i, hi, a, ha, hmatch, hfirst, hset, ?_, ?_⟩
    · rw [hset, List.length_set]
    · intro j hj
      rw [hset]
      exact List.get?_set_ne _ _ (fun hh => hj hh.symm)

/-- C10 witness: completing "quiz" (case-insensitive) in a two-assignment
store updates exactly the quiz record. -/
theorem complete_assignment_spec_witness :
    complete_assignment [sampleEssay, sampleQuiz] "QUIZ" "TS" =
      some [sampleEssay, markDone sampleQuiz "TS"] ∧
    (∃ i, i < ([sampleEssay, sampleQuiz] : List Assignment).length ∧
      ∃ a, ([sampleEssay, sampleQuiz] : List Assignment).get? i = some a ∧
        titleMatchesPending a "QUIZ" = true ∧
        (∀ j, j < i → ∀ b, ([sampleEssay, sampleQuiz] : List Assignment).get? j = some b →
          titleMatchesPending b "QUIZ" = false) ∧
        [sampleEssay, markDone sampleQuiz "TS"] =
          ([sampleEssay, sampleQuiz] : List Assignment).set i (markDone a "TS") ∧
        ([sampleEssay, markDone sampleQuiz "TS"] : List Assignment).length =
          ([sampleEssay, sampleQuiz] : List Assignment).length ∧
        (∀ j, j ≠ i → ([sampleEssay, markDone sampleQuiz "TS"] : List Assignment).get? j =
          ([sampleEssay, sampleQuiz] : List Assignment).get? j)) := by
  have h : complete_assignment [sampleEssay, sampleQuiz] "QUIZ" "TS" =
      some [sampleEssay, markDone sampleQuiz "TS"] := by decide
  exact ⟨h, (complete_assignment_spec [sampleEssay, sampleQuiz] "QUIZ" "TS").2.2
    [sampleEssay, markDone sampleQuiz "TS"] h⟩

end TwinBot
